import Mathlib

/-!
Shallow embedding of the MMORPG game client (`GameClient` in the source).

JavaScript objects keyed by strings (`this.players`, `this.avatars`,
avatar frame tables) are modelled as association lists; assignment
`obj[k] = v` is `aset`, lookup `obj[k]` is `alookup`, `delete obj[k]`
is `aremove`.  JavaScript object *identity* matters for the claims about
the `myPlayer` alias, so player objects live on an explicit heap
(`heap : Ref → Player` plus a freshness counter `nextRef`), and
`this.players` maps player ids to references; a message arriving over
the wire is parsed JSON, so its player objects are fresh allocations.

JavaScript numbers are modelled as rationals (every operation the client
performs on coordinates — addition, subtraction by 16, halving the
canvas size, `Math.max`/`Math.min` — is exact on the values involved).

Handlers return, besides the next state, the ordered list of observable
effects (`Event`): store writes, outbound socket messages and render
passes, in the order the source performs them.
-/

namespace GameClient

/-- JS object lookup `obj[k]` over an association list. -/
def alookup {α : Type} : List (String × α) → String → Option α
  | [], _ => none
  | (k', v) :: rest, k => if k' = k then some v else alookup rest k

/-- JS object assignment `obj[k] = v`: overwrite the binding if the key
is present, otherwise append a new binding. -/
def aset {α : Type} : List (String × α) → String → α → List (String × α)
  | [], k, v => [(k, v)]
  | (k', v') :: rest, k, v =>
      if k' = k then (k', v) :: rest else (k', v') :: aset rest k v

/-- JS `delete obj[k]`. -/
def aremove {α : Type} : List (String × α) → String → List (String × α)
  | [], _ => []
  | (k', v') :: rest, k =>
      if k' = k then rest else (k', v') :: aremove rest k

/-- The keys of a JS object, in insertion order. -/
def akeys {α : Type} (l : List (String × α)) : List String :=
  l.map Prod.fst

/-- A heap reference identifying one JS object. -/
abbrev Ref := Nat

/-- One participant, as stored in `this.players` (and in wire messages).
`facing` and `animationFrame` may be absent (`player.facing || 'south'`,
`player.animationFrame || 0` in the source). -/
structure Player where
  id : String
  x : ℚ
  y : ℚ
  facing : Option String
  animationFrame : Option Nat
  username : String
  avatar : String
deriving DecidableEq, Repr

/-- One avatar definition: `frames` maps a direction name to the ordered
list of frame identifiers (opaque image data strings). -/
structure AvatarDef where
  name : String
  frames : List (String × List String)
deriving DecidableEq, Repr

/-- The four `this.pressedKeys` booleans, in the declaration order of
the source (`ArrowUp`, `ArrowDown`, `ArrowLeft`, `ArrowRight`), which is
also the `Object.values`/`Object.entries` enumeration order. -/
structure PressedKeys where
  ArrowUp : Bool
  ArrowDown : Bool
  ArrowLeft : Bool
  ArrowRight : Bool
deriving DecidableEq, Repr

/-- Outbound wire messages (`this.socket.send(...)`). -/
inductive OutMsg where
  | move (x y : ℚ)
  | stop
  | joinGame (username : String)
deriving DecidableEq, Repr

/-- Observable effects of a handler, in program order. -/
inductive Event where
  | facingWrite (direction : String)
  | posWrite (direction : String)
  | send (m : OutMsg)
  | render
deriving DecidableEq, Repr

/-- The mutable fields of `GameClient` that the core logic reads or
writes.  The canvas drawing context and the world image pixels are
external; only the flag `worldImageLoaded` (whether `this.worldImage`
has loaded, which gates `render`) and the canvas dimensions are kept. -/
structure GameState where
  worldWidth : ℚ
  worldHeight : ℚ
  players : List (String × Ref)
  avatars : List (String × AvatarDef)
  myPlayerId : Option String
  myPlayer : Option Ref
  heap : Ref → Player
  nextRef : Ref
  pressedKeys : PressedKeys
  lastSentDirection : Option String
  isMoving : Bool
  cameraX : ℚ
  cameraY : ℚ
  canvasWidth : ℚ
  canvasHeight : ℚ
  socketOpen : Bool
  worldImageLoaded : Bool

/-- Inbound server messages, by their `action` tag. -/
inductive ServerMsg where
  | joinGameOk (playerId : String) (players : List (String × Player))
      (avatars : List (String × AvatarDef))
  | joinGameFail (error : String)
  | playerJoined (player : Player) (avatar : AvatarDef)
  | playersMoved (players : List (String × Player))
  | playerLeft (playerId : String)
  | moveAck (success : Bool)
  | stopAck (success : Bool)
  | unknown

/-- `keyCodeToDirection`: the `keyMap` lookup. -/
def keyCodeToDirection (keyCode : String) : Option String :=
  if keyCode = "ArrowUp" then some "up"
  else if keyCode = "ArrowDown" then some "down"
  else if keyCode = "ArrowLeft" then some "left"
  else if keyCode = "ArrowRight" then some "right"
  else none

/-- `calculateNewPosition`: candidate target position for a direction,
clamped per axis; `{x: 0, y: 0}` when there is no controlled player. -/
def calculateNewPosition (st : GameState) (direction : String) : ℚ × ℚ :=
  match st.myPlayer with
  | none => (0, 0)
  | some r =>
      let p := st.heap r
      if direction = "up" then (p.x, max 0 (p.y - 16))
      else if direction = "down" then (p.x, min st.worldHeight (p.y + 16))
      else if direction = "left" then (max 0 (p.x - 16), p.y)
      else if direction = "right" then (min st.worldWidth (p.x + 16), p.y)
      else (p.x, p.y)

/-- `updateCamera`: center on the controlled player, clamp each axis to
the map boundaries; no-op when there is no controlled player. -/
def updateCamera (st : GameState) : GameState :=
  match st.myPlayer with
  | none => st
  | some r =>
      let p := st.heap r
      { st with
        cameraX := max 0 (min (p.x - st.canvasWidth / 2)
                              (st.worldWidth - st.canvasWidth)),
        cameraY := max 0 (min (p.y - st.canvasHeight / 2)
                              (st.worldHeight - st.canvasHeight)) }

/-- `render`: returns early while the world image has not loaded;
otherwise updates the camera and produces one render pass.  The actual
drawing (world blit, per-player `renderAvatar` drawing) targets the
external canvas; the avatar resolution and image-cache logic inside
`renderAvatar` is modelled separately below. -/
def render (st : GameState) : GameState × List Event :=
  if st.worldImageLoaded then (updateCamera st, [Event.render]) else (st, [])

/-- `updateMyPosition`: in-place optimistic mutation of the controlled
player's coordinates (step 16, clamped per axis), then a render; no-op
when there is no controlled player. -/
def updateMyPosition (st : GameState) (direction : String) :
    GameState × List Event :=
  match st.myPlayer with
  | none => (st, [])
  | some r =>
      let p := st.heap r
      let p' :=
        if direction = "up" then { p with y := max 0 (p.y - 16) }
        else if direction = "down" then
          { p with y := min st.worldHeight (p.y + 16) }
        else if direction = "left" then { p with x := max 0 (p.x - 16) }
        else if direction = "right" then
          { p with x := min st.worldWidth (p.x + 16) }
        else p
      let st' := { st with heap := fun r' => if r' = r then p' else st.heap r' }
      let res := render st'
      (res.1, Event.posWrite direction :: res.2)

/-- `sendMoveCommand`: guard on the socket, translate the key code,
write the facing, compute the candidate position, send the `move`
message, record the sent direction, then apply the local prediction. -/
def sendMoveCommand (st : GameState) (keyCode : String) :
    GameState × List Event :=
  if st.socketOpen then
    match keyCodeToDirection keyCode with
    | none => (st, [])
    | some direction =>
        let res1 :=
          match st.myPlayer with
          | some r =>
              ({ st with heap := fun r' =>
                  if r' = r then { st.heap r with facing := some direction }
                  else st.heap r' },
               [Event.facingWrite direction])
          | none => (st, ([] : List Event))
        let st1 := res1.1
        let np := calculateNewPosition st1 direction
        let st2 := { st1 with lastSentDirection := some direction,
                              isMoving := true }
        let res3 := updateMyPosition st2 direction
        (res3.1, res1.2 ++ [Event.send (OutMsg.move np.1 np.2)] ++ res3.2)
  else (st, [])

/-- `sendStopCommand`: guard on the socket, send `stop`, clear the sent
direction and the moving flag. -/
def sendStopCommand (st : GameState) : GameState × List Event :=
  if st.socketOpen then
    ({ st with lastSentDirection := none, isMoving := false },
     [Event.send OutMsg.stop])
  else (st, [])

/-- `sendMoveCommandForPressedKeys`: walk `Object.entries(pressedKeys)`
in declaration order and send a move for the first pressed key. -/
def sendMoveCommandForPressedKeys (st : GameState) : GameState × List Event :=
  if st.pressedKeys.ArrowUp then sendMoveCommand st "ArrowUp"
  else if st.pressedKeys.ArrowDown then sendMoveCommand st "ArrowDown"
  else if st.pressedKeys.ArrowLeft then sendMoveCommand st "ArrowLeft"
  else if st.pressedKeys.ArrowRight then sendMoveCommand st "ArrowRight"
  else (st, [])

/-- Write one `pressedKeys` field by key code. -/
def setKey (ks : PressedKeys) (keyCode : String) (b : Bool) : PressedKeys :=
  if keyCode = "ArrowUp" then { ks with ArrowUp := b }
  else if keyCode = "ArrowDown" then { ks with ArrowDown := b }
  else if keyCode = "ArrowLeft" then { ks with ArrowLeft := b }
  else if keyCode = "ArrowRight" then { ks with ArrowRight := b }
  else ks

/-- Read one `pressedKeys` field by key code. -/
def getKey (ks : PressedKeys) (keyCode : String) : Bool :=
  if keyCode = "ArrowUp" then ks.ArrowUp
  else if keyCode = "ArrowDown" then ks.ArrowDown
  else if keyCode = "ArrowLeft" then ks.ArrowLeft
  else if keyCode = "ArrowRight" then ks.ArrowRight
  else false

/-- The arrow-key filter list of `handleKeyUp` / `handleKeyDown`. -/
def arrowKeys : List String :=
  ["ArrowUp", "ArrowDown", "ArrowLeft", "ArrowRight"]

/-- `handleKeyUp`: mark the key released; if no movement key remains
pressed send a stop, otherwise send a move for the first still-pressed
key in declaration order. -/
def handleKeyUp (st : GameState) (keyCode : String) : GameState × List Event :=
  if keyCode ∈ arrowKeys then
    let st1 := { st with pressedKeys := setKey st.pressedKeys keyCode false }
    let anyKeyPressed := st1.pressedKeys.ArrowUp || st1.pressedKeys.ArrowDown
        || st1.pressedKeys.ArrowLeft || st1.pressedKeys.ArrowRight
    if anyKeyPressed then sendMoveCommandForPressedKeys st1
    else sendStopCommand st1
  else (st, [])

/-- `handleKeyDown`: ignore non-arrow keys and already-pressed keys;
otherwise mark pressed and send the move. -/
def handleKeyDown (st : GameState) (keyCode : String) :
    GameState × List Event :=
  if keyCode ∈ arrowKeys then
    if getKey st.pressedKeys keyCode then (st, [])
    else
      sendMoveCommand
        { st with pressedKeys := setKey st.pressedKeys keyCode true } keyCode
  else (st, [])

/-- Allocate the player objects of a parsed wire message: each entry of
the message's `players` map is a fresh JS object, so each gets a fresh
heap reference, and the id is bound to that reference in `this.players`
(`Object.assign(this.players, message.players)` assigns entry by entry
in the message's insertion order; the wholesale `this.players =
message.players` of the join case does the same into an emptied map). -/
def allocPlayers (st : GameState) :
    List (String × Player) → GameState
  | [] => st
  | (k, p) :: rest =>
      let r := st.nextRef
      allocPlayers
        { st with
          players := aset st.players k r,
          heap := fun r' => if r' = r then p else st.heap r',
          nextRef := r + 1 } rest

/-- `handleServerMessage`: dispatch on `message.action`, then always
`this.render()`.  Log-only branches (`join_game` failure, `move`/`stop`
acknowledgments, unknown actions) change no state. -/
def handleServerMessage (st : GameState) (msg : ServerMsg) :
    GameState × List Event :=
  let st1 :=
    match msg with
    | ServerMsg.joinGameOk pid playersMsg avatarsMsg =>
        let sta := allocPlayers { st with players := [] } playersMsg
        let stb := { sta with
          myPlayerId := some pid,
          avatars := avatarsMsg }
        updateCamera { stb with myPlayer := alookup stb.players pid }
    | ServerMsg.joinGameFail _ => st
    | ServerMsg.playerJoined p a =>
        let r := st.nextRef
        { st with
          players := aset st.players p.id r,
          heap := fun r' => if r' = r then p else st.heap r',
          nextRef := r + 1,
          avatars := aset st.avatars a.name a }
    | ServerMsg.playersMoved playersMsg => allocPlayers st playersMsg
    | ServerMsg.playerLeft pid => { st with players := aremove st.players pid }
    | ServerMsg.moveAck _ => st
    | ServerMsg.stopAck _ => st
    | ServerMsg.unknown => st
  render st1

/-- The outbound messages contained in an effect trace, in order. -/
def sentMsgs (evs : List Event) : List OutMsg :=
  evs.filterMap fun e =>
    match e with
    | Event.send m => some m
    | _ => none

/-- The EntityStore entry for a player id, as a value: the player object
currently bound to that id. -/
def playerValue (st : GameState) (k : String) : Option Player :=
  (alookup st.players k).map st.heap

/-- Well-formedness of the reference layer: every reference bound in
`this.players` was allocated before `nextRef` (true of every state the
client reaches, since objects only enter the store via allocation). -/
def WF (st : GameState) : Prop :=
  ∀ kr : String × Ref, kr ∈ st.players → kr.2 < st.nextRef

/-- The `myPlayer` aliasing invariant of the spec: the controlled player
reference is the very same object reference as the EntityStore binding
of the controlled player's id. -/
def Aligned (st : GameState) : Prop :=
  ∀ pid : String, st.myPlayerId = some pid →
    st.myPlayer = alookup st.players pid

/-- Whether an event is the optimistic position write. -/
def isPosWrite (e : Event) : Bool :=
  match e with
  | Event.posWrite _ => true
  | _ => false

/-- Whether an event is an outbound `move` message. -/
def isSendMove (e : Event) : Bool :=
  match e with
  | Event.send (OutMsg.move _ _) => true
  | _ => false

/-! ### Avatar resolution (`renderAvatar`, lines before the drawing) -/

/-- The locals of `renderAvatar` that decide what is drawn and cached. -/
structure ResolvedAvatar where
  actualDirection : String
  shouldFlip : Bool
  frameData : String
  cacheKey : String
deriving DecidableEq, Repr

/-- The resolution prefix of `renderAvatar`: avatar lookup, facing
default, west/left canonicalization to east plus mirror flag, frame
selection, cache key construction.  Returns `none` where the source
returns early (unknown avatar, missing direction or frame). -/
def renderAvatarResolve (avatars : List (String × AvatarDef))
    (player : Player) : Option ResolvedAvatar :=
  match alookup avatars player.avatar with
  | none => none
  | some avatar =>
      let direction := player.facing.getD "south"
      let frame := player.animationFrame.getD 0
      let actualDirection :=
        if direction = "left" ∨ direction = "west" then "east" else direction
      let shouldFlip : Bool := direction = "left" ∨ direction = "west"
      match alookup avatar.frames actualDirection with
      | none => none
      | some frameList =>
          match frameList[frame]? with
          | none => none
          | some frameData =>
              some { actualDirection := actualDirection,
                     shouldFlip := shouldFlip,
                     frameData := frameData,
                     cacheKey := player.avatar ++ "_" ++ direction ++ "_"
                                 ++ toString frame }

/-! ### Image cache (`this.imageCache` plus `loadAvatarImage`)

`renderAvatar` does `if (!imageCache.has(key)) { const img = await
loadAvatarImage(...); imageCache.set(key, img); }`.  The check and the
`set` are separated by an `await`, and `render()` passes are started
without being awaited (from message handling, key handling, resize), so
several passes can interleave at that suspension point.  The cache
protocol is therefore modelled as a small event system: a `request key`
step is one pass reaching the cache check (starting a load on a miss),
a `loadComplete key` step is one `loadAvatarImage` promise resolving
(populating the cache).  `startedLoads` records every load ever
started. -/

/-- State of the image cache protocol.  The image handle is opaque. -/
structure CacheState where
  imageCache : List (String × Unit)
  startedLoads : List String
deriving DecidableEq, Repr

/-- One scheduler step of the cache protocol. -/
inductive CacheEvent where
  | request (key : String)
  | loadComplete (key : String)
deriving DecidableEq, Repr

/-- Effect of one step: a request on a cache miss starts a load (the
cache is *not* yet populated — that only happens after the `await`);
a completing load populates the cache. -/
def cacheStep (c : CacheState) : CacheEvent → CacheState
  | CacheEvent.request key =>
      if (alookup c.imageCache key).isSome then c
      else { c with startedLoads := c.startedLoads ++ [key] }
  | CacheEvent.loadComplete key =>
      { c with imageCache := aset c.imageCache key () }

/-- Run the cache protocol from the empty cache of the constructor. -/
def cacheRun (evs : List CacheEvent) : CacheState :=
  evs.foldl cacheStep { imageCache := [], startedLoads := [] }

/-! ### Concrete fixtures (used by witnesses and counterexamples) -/

/-- Model artifact: the value of unallocated heap cells (the client
never dereferences a reference it did not allocate). -/
def defaultPlayer : Player :=
  { id := "", x := 0, y := 0, facing := none, animationFrame := none,
    username := "", avatar := "" }

/-- A sample avatar definition with the shipped directions. -/
def heroAvatar : AvatarDef :=
  { name := "hero",
    frames := [("north", ["n0", "n1"]), ("south", ["s0", "s1"]),
               ("east", ["e0", "e1"])] }

/-- The client state right after construction and socket open (before
any join response): empty store, no controlled player. -/
def stInit : GameState :=
  { worldWidth := 2048, worldHeight := 2048,
    players := [], avatars := [],
    myPlayerId := none, myPlayer := none,
    heap := fun _ => defaultPlayer, nextRef := 0,
    pressedKeys := { ArrowUp := false, ArrowDown := false,
                     ArrowLeft := false, ArrowRight := false },
    lastSentDirection := none, isMoving := false,
    cameraX := 0, cameraY := 0,
    canvasWidth := 800, canvasHeight := 600,
    socketOpen := true, worldImageLoaded := true }

/-- The controlled player of the sample session. -/
def pJadon : Player :=
  { id := "p1", x := 100, y := 100, facing := some "south",
    animationFrame := some 0, username := "Jadon", avatar := "hero" }

/-- A server-side update for the controlled player at another position. -/
def pJadonMoved : Player :=
  { id := "p1", x := 500, y := 600, facing := some "east",
    animationFrame := some 1, username := "Jadon", avatar := "hero" }

/-- A second participant. -/
def pOther : Player :=
  { id := "p2", x := 300, y := 400, facing := some "north",
    animationFrame := some 0, username := "Other", avatar := "hero" }

/-- A joined state: the controlled player `p1` lives at reference 0 and
`myPlayer` aliases it. -/
def st0 : GameState :=
  { stInit with
    players := [("p1", 0)],
    avatars := [("hero", heroAvatar)],
    myPlayerId := some "p1",
    myPlayer := some 0,
    heap := fun r => if r = 0 then pJadon else defaultPlayer,
    nextRef := 1 }

/-! ### Association-list lemmas -/

theorem alookup_aset_self {α : Type} (l : List (String × α)) (k : String)
    (v : α) : alookup (aset l k v) k = some v := by
  induction l with
  | nil => simp [aset, alookup]
  | cons hd tl ih =>
      obtain ⟨k', v'⟩ := hd
      by_cases h : k' = k
      · simp [aset, alookup, h]
      · simp [aset, alookup, h, ih]

theorem alookup_aset_ne {α : Type} (l : List (String × α)) {k k' : String}
    (v : α) (h : k ≠ k') : alookup (aset l k v) k' = alookup l k' := by
  induction l with
  | nil => simp [aset, alookup, h]
  | cons hd tl ih =>
      obtain ⟨k0, v0⟩ := hd
      by_cases h0 : k0 = k
      · subst h0
        simp [aset, alookup, h]
      · simp only [aset, if_neg h0]
        by_cases h1 : k0 = k'
        · simp [alookup, h1]
        · simp [alookup, h1, ih]

theorem mem_aset {α : Type} {l : List (String × α)} {k : String} {v : α}
    {q : String × α} : q ∈ aset l k v → q = (k, v) ∨ q ∈ l := by
  induction l with
  | nil => intro h; simpa [aset] using h
  | cons hd tl ih =>
      obtain ⟨k0, v0⟩ := hd
      intro h
      by_cases h0 : k0 = k
      · subst h0
        simp only [aset, if_pos] at h
        rcases List.mem_cons.mp h with h | h
        · exact Or.inl (by simpa using h)
        · exact Or.inr (List.mem_cons_of_mem _ h)
      · simp only [aset, if_neg h0] at h
        rcases List.mem_cons.mp h with h | h
        · exact Or.inr (by simp [h])
        · rcases ih h with h1 | h1
          · exact Or.inl h1
          · exact Or.inr (by simp [h1])

/-! ### Frame preservation lemmas for the state transformers -/

theorem updateCamera_players (st : GameState) :
    (updateCamera st).players = st.players := by
  rcases h : st.myPlayer with _ | r <;> simp [updateCamera, h]

theorem updateCamera_heap (st : GameState) :
    (updateCamera st).heap = st.heap := by
  rcases h : st.myPlayer with _ | r <;> simp [updateCamera, h]

theorem updateCamera_myPlayer (st : GameState) :
    (updateCamera st).myPlayer = st.myPlayer := by
  rcases h : st.myPlayer with _ | r <;> simp [updateCamera, h]

theorem updateCamera_myPlayerId (st : GameState) :
    (updateCamera st).myPlayerId = st.myPlayerId := by
  rcases h : st.myPlayer with _ | r <;> simp [updateCamera, h]

theorem updateCamera_nextRef (st : GameState) :
    (updateCamera st).nextRef = st.nextRef := by
  rcases h : st.myPlayer with _ | r <;> simp [updateCamera, h]

theorem updateCamera_lastSentDirection (st : GameState) :
    (updateCamera st).lastSentDirection = st.lastSentDirection := by
  rcases h : st.myPlayer with _ | r <;> simp [updateCamera, h]

theorem updateCamera_isMoving (st : GameState) :
    (updateCamera st).isMoving = st.isMoving := by
  rcases h : st.myPlayer with _ | r <;> simp [updateCamera, h]

theorem render_players (st : GameState) : (render st).1.players = st.players := by
  by_cases h : st.worldImageLoaded <;> simp [render, h, updateCamera_players]

theorem render_heap (st : GameState) : (render st).1.heap = st.heap := by
  by_cases h : st.worldImageLoaded <;> simp [render, h, updateCamera_heap]

theorem render_myPlayer (st : GameState) :
    (render st).1.myPlayer = st.myPlayer := by
  by_cases h : st.worldImageLoaded <;> simp [render, h, updateCamera_myPlayer]

theorem render_myPlayerId (st : GameState) :
    (render st).1.myPlayerId = st.myPlayerId := by
  by_cases h : st.worldImageLoaded <;> simp [render, h, updateCamera_myPlayerId]

theorem render_nextRef (st : GameState) :
    (render st).1.nextRef = st.nextRef := by
  by_cases h : st.worldImageLoaded <;> simp [render, h, updateCamera_nextRef]

theorem render_lastSentDirection (st : GameState) :
    (render st).1.lastSentDirection = st.lastSentDirection := by
  by_cases h : st.worldImageLoaded <;>
    simp [render, h, updateCamera_lastSentDirection]

theorem render_isMoving (st : GameState) :
    (render st).1.isMoving = st.isMoving := by
  by_cases h : st.worldImageLoaded <;> simp [render, h, updateCamera_isMoving]

theorem render_sentMsgs (st : GameState) : sentMsgs (render st).2 = [] := by
  by_cases h : st.worldImageLoaded <;> simp [render, h, sentMsgs]

/-! ### Lemmas about `allocPlayers` -/

theorem allocPlayers_myPlayer (msg : List (String × Player)) (st : GameState) :
    (allocPlayers st msg).myPlayer = st.myPlayer := by
  induction msg generalizing st with
  | nil => rfl
  | cons hd tl ih =>
      obtain ⟨k, p⟩ := hd
      rw [allocPlayers]
      exact ih _

theorem allocPlayers_myPlayerId (msg : List (String × Player))
    (st : GameState) : (allocPlayers st msg).myPlayerId = st.myPlayerId := by
  induction msg generalizing st with
  | nil => rfl
  | cons hd tl ih =>
      obtain ⟨k, p⟩ := hd
      rw [allocPlayers]
      exact ih _

theorem allocPlayers_worldImageLoaded (msg : List (String × Player))
    (st : GameState) :
    (allocPlayers st msg).worldImageLoaded = st.worldImageLoaded := by
  induction msg generalizing st with
  | nil => rfl
  | cons hd tl ih =>
      obtain ⟨k, p⟩ := hd
      rw [allocPlayers]
      exact ih _

theorem allocPlayers_nextRef_le (msg : List (String × Player))
    (st : GameState) : st.nextRef ≤ (allocPlayers st msg).nextRef := by
  induction msg generalizing st with
  | nil => exact le_refl _
  | cons hd tl ih =>
      obtain ⟨k, p⟩ := hd
      rw [allocPlayers]
      refine le_trans (Nat.le_succ _) ?_
      exact ih { st with players := aset st.players k st.nextRef,
                         heap := fun r' => if r' = st.nextRef then p
                                           else st.heap r',
                         nextRef := st.nextRef + 1 }

theorem allocPlayers_heap_lt (msg : List (String × Player)) (st : GameState)
    (r : Ref) (hr : r < st.nextRef) :
    (allocPlayers st msg).heap r = st.heap r := by
  induction msg generalizing st with
  | nil => rfl
  | cons hd tl ih =>
      obtain ⟨k, p⟩ := hd
      rw [allocPlayers]
      rw [ih _ (Nat.lt_succ_of_lt hr)]
      simp [Nat.ne_of_lt hr]

theorem allocPlayers_lookup_not_mem (msg : List (String × Player))
    (st : GameState) (k : String) (hk : k ∉ akeys msg) :
    alookup (allocPlayers st msg).players k = alookup st.players k := by
  induction msg generalizing st with
  | nil => rfl
  | cons hd tl ih =>
      obtain ⟨k0, p⟩ := hd
      simp only [akeys, List.map_cons, List.mem_cons] at hk
      push_neg at hk
      rw [allocPlayers]
      rw [ih _ (by simpa [akeys] using hk.2)]
      exact alookup_aset_ne _ _ (fun h => hk.1 h.symm)

theorem WF_allocPlayers (msg : List (String × Player)) (st : GameState)
    (hwf : WF st) : WF (allocPlayers st msg) := by
  induction msg generalizing st with
  | nil => exact hwf
  | cons hd tl ih =>
      obtain ⟨k0, p⟩ := hd
      rw [allocPlayers]
      refine ih _ ?_
      intro kr hkr
      rcases mem_aset hkr with h | h
      · simp [h]
      · exact Nat.lt_succ_of_lt (hwf kr h)

theorem allocPlayers_lookup_mem (msg : List (String × Player))
    (st : GameState) (hwf : WF st) (hnd : (akeys msg).Nodup)
    (k : String) (p : Player) (hmem : (k, p) ∈ msg) :
    ∃ r : Ref, alookup (allocPlayers st msg).players k = some r ∧
      (allocPlayers st msg).heap r = p := by
  induction msg generalizing st with
  | nil => cases hmem
  | cons hd tl ih =>
      obtain ⟨k0, p0⟩ := hd
      simp only [akeys, List.map_cons, List.nodup_cons] at hnd
      rcases List.mem_cons.mp hmem with h | h
      · obtain ⟨hk, hp⟩ := Prod.mk.injEq .. ▸ h
        subst hk; subst hp
        rw [allocPlayers]
        refine ⟨st.nextRef, ?_, ?_⟩
        · rw [allocPlayers_lookup_not_mem _ _ _ (by simpa [akeys] using hnd.1)]
          exact alookup_aset_self _ _ _
        · rw [allocPlayers_heap_lt _ _ _ (Nat.lt_succ_self _)]
          simp
      · rw [allocPlayers]
        refine ih _ ?_ (by simpa [akeys] using hnd.2) h
        intro kr hkr
        rcases mem_aset hkr with h1 | h1
        · simp [h1]
        · exact Nat.lt_succ_of_lt (hwf kr h1)

theorem alookup_mem {α : Type} {l : List (String × α)} {k : String} {v : α}
    (h : alookup l k = some v) : (k, v) ∈ l := by
  induction l with
  | nil => cases h
  | cons hd tl ih =>
      obtain ⟨k0, v0⟩ := hd
      by_cases h0 : k0 = k
      · subst h0
        rw [alookup, if_pos rfl] at h
        cases Option.some.inj h
        exact List.mem_cons_self _ _
      · rw [alookup, if_neg h0] at h
        exact List.mem_cons_of_mem _ (ih h)

instance (st : GameState) : Decidable (WF st) :=
  inferInstanceAs (Decidable (∀ kr ∈ st.players, kr.2 < st.nextRef))

/-- The sample `players_moved` payload. -/
def msgMoved : List (String × Player) := [("p1", pJadonMoved), ("p2", pOther)]

/-- The state after the sample join response has been handled. -/
def stJoined : GameState :=
  (handleServerMessage stInit
    (ServerMsg.joinGameOk "p1" [("p1", pJadon)] [("hero", heroAvatar)])).1

/-- `stJoined` after a `players_moved` for the controlled player. -/
def stAfterMoved : GameState :=
  (handleServerMessage stJoined
    (ServerMsg.playersMoved [("p1", pJadonMoved)])).1

/-- C1: a `players_moved` message replaces the EntityStore entry of
every included player id with exactly the message's value for that id
(full per-player overwrite, in particular for the controlled player's
id), and leaves the entry of every id not in the message unchanged. -/
theorem players_moved_full_overwrite (st : GameState)
    (msg : List (String × Player)) (hwf : WF st)
    (hnd : (akeys msg).Nodup) :
    (∀ k p, (k, p) ∈ msg →
      playerValue (handleServerMessage st (ServerMsg.playersMoved msg)).1 k
        = some p) ∧
    (∀ k, k ∉ akeys msg →
      playerValue (handleServerMessage st (ServerMsg.playersMoved msg)).1 k
        = playerValue st k) := by
  constructor
  · intro k p hmem
    obtain ⟨r, hr1, hr2⟩ := allocPlayers_lookup_mem msg st hwf hnd k p hmem
    show playerValue (render (allocPlayers st msg)).1 k = some p
    unfold playerValue
    rw [render_players, render_heap, hr1]
    simp [hr2]
  · intro k hk
    show playerValue (render (allocPlayers st msg)).1 k = playerValue st k
    unfold playerValue
    rw [render_players, render_heap, allocPlayers_lookup_not_mem msg st k hk]
    rcases h : alookup st.players k with _ | r
    · simp
    · simp [allocPlayers_heap_lt msg st r (hwf (k, r) (alookup_mem h))]

/-- Witness for C1 at a concrete state and message. -/
theorem players_moved_full_overwrite_witness :
    playerValue (handleServerMessage st0 (ServerMsg.playersMoved msgMoved)).1
      "p1" = some pJadonMoved ∧
    playerValue (handleServerMessage st0 (ServerMsg.playersMoved msgMoved)).1
      "p3" = playerValue st0 "p3" :=
  ⟨(players_moved_full_overwrite st0 msgMoved (by decide) (by decide)).1
      "p1" pJadonMoved (by simp [msgMoved]),
   (players_moved_full_overwrite st0 msgMoved (by decide) (by decide)).2
      "p3" (by decide)⟩

/-- C2 counterexample: after a successful join the controlled player is
aliased (`myPlayer` is the store's binding for its id), but handling a
`players_moved` message containing the controlled player's id rebinds
the id to the message's fresh object (reference 1) while `myPlayer`
keeps referencing the old object (reference 0), so the aliasing
invariant does not survive that mutation. -/
theorem my_player_alias_counterexample :
    Aligned stJoined ∧
    stAfterMoved.myPlayer = some 0 ∧
    alookup stAfterMoved.players "p1" = some 1 ∧
    ¬ Aligned stAfterMoved := by
  refine ⟨?_, rfl, rfl, ?_⟩
  · intro pid h
    have h2 : some "p1" = some pid := h
    cases Option.some.inj h2
    rfl
  · intro h
    have h2 := h "p1" rfl
    have h3 : (some 0 : Option Ref) = some 1 := h2
    exact absurd (Option.some.inj h3) (by decide)

/-- C2 amended: the aliasing invariant holds right after a successful
join is handled, and it is preserved by handling a `players_moved`
message that does not contain the controlled player's id (the
counterexample above shows a message containing that id breaks it). -/
theorem my_player_alias (st : GameState) :
    (∀ pid playersMsg avatarsMsg,
      Aligned (handleServerMessage st
        (ServerMsg.joinGameOk pid playersMsg avatarsMsg)).1) ∧
    (∀ msg, Aligned st →
      (∀ pid, st.myPlayerId = some pid → pid ∉ akeys msg) →
      Aligned (handleServerMessage st (ServerMsg.playersMoved msg)).1) := by
  constructor
  · intro pid playersMsg avatarsMsg pid' h
    simp only [handleServerMessage] at h ⊢
    rw [render_myPlayerId, updateCamera_myPlayerId] at h
    have h2 : some pid = some pid' := h
    cases Option.some.inj h2
    rw [render_myPlayer, render_players, updateCamera_myPlayer,
        updateCamera_players]
  · intro msg hal hnot pid h
    simp only [handleServerMessage] at h ⊢
    rw [render_myPlayerId, allocPlayers_myPlayerId] at h
    rw [render_myPlayer, render_players, allocPlayers_myPlayer,
        allocPlayers_lookup_not_mem _ _ _ (hnot pid h)]
    exact hal pid h

/-- Witness for C2 at concrete states. -/
theorem my_player_alias_witness :
    Aligned (handleServerMessage stInit
      (ServerMsg.joinGameOk "p1" [("p1", pJadon)] [("hero", heroAvatar)])).1 ∧
    Aligned (handleServerMessage st0
      (ServerMsg.playersMoved [("p2", pOther)])).1 :=
  ⟨(my_player_alias stInit).1 "p1" [("p1", pJadon)] [("hero", heroAvatar)],
   (my_player_alias st0).2 [("p2", pOther)]
     (by intro pid h; cases Option.some.inj h; rfl)
     (by intro pid h; cases Option.some.inj h; decide)⟩

/-! ### Lemmas about the movement pipeline -/

theorem keyCodeToDirection_cases {k d : String}
    (h : keyCodeToDirection k = some d) :
    (k = "ArrowUp" ∧ d = "up") ∨ (k = "ArrowDown" ∧ d = "down") ∨
    (k = "ArrowLeft" ∧ d = "left") ∨ (k = "ArrowRight" ∧ d = "right") := by
  unfold keyCodeToDirection at h
  split_ifs at h <;> simp_all

theorem sentMsgs_append (a b : List Event) :
    sentMsgs (a ++ b) = sentMsgs a ++ sentMsgs b :=
  List.filterMap_append ..

theorem sentMsgs_nil : sentMsgs [] = [] := rfl

theorem sentMsgs_cons_facingWrite (d : String) (l : List Event) :
    sentMsgs (Event.facingWrite d :: l) = sentMsgs l := by
  simp [sentMsgs]

theorem sentMsgs_cons_posWrite (d : String) (l : List Event) :
    sentMsgs (Event.posWrite d :: l) = sentMsgs l := by
  simp [sentMsgs]

theorem sentMsgs_cons_render (l : List Event) :
    sentMsgs (Event.render :: l) = sentMsgs l := by
  simp [sentMsgs]

theorem sentMsgs_cons_send (m : OutMsg) (l : List Event) :
    sentMsgs (Event.send m :: l) = m :: sentMsgs l := by
  simp [sentMsgs]

theorem updateMyPosition_players (st : GameState) (d : String) :
    (updateMyPosition st d).1.players = st.players := by
  rcases h : st.myPlayer with _ | r <;>
    simp [updateMyPosition, h, render_players]

theorem updateMyPosition_lastSentDirection (st : GameState) (d : String) :
    (updateMyPosition st d).1.lastSentDirection = st.lastSentDirection := by
  rcases h : st.myPlayer with _ | r <;>
    simp [updateMyPosition, h, render_lastSentDirection]

theorem updateMyPosition_isMoving (st : GameState) (d : String) :
    (updateMyPosition st d).1.isMoving = st.isMoving := by
  rcases h : st.myPlayer with _ | r <;>
    simp [updateMyPosition, h, render_isMoving]

theorem updateMyPosition_sentMsgs (st : GameState) (d : String) :
    sentMsgs (updateMyPosition st d).2 = [] := by
  rcases h : st.myPlayer with _ | r
  · simp [updateMyPosition, h, sentMsgs_nil]
  · simp only [updateMyPosition, h]
    rw [sentMsgs_cons_posWrite, render_sentMsgs]

theorem updateMyPosition_snd (st : GameState) (d : String)
    (hm : st.myPlayer.isSome = true) (hw : st.worldImageLoaded = true) :
    (updateMyPosition st d).2 = [Event.posWrite d, Event.render] := by
  rcases h : st.myPlayer with _ | r
  · rw [h] at hm; cases hm
  · simp only [updateMyPosition, h]
    simp [render, hw]

theorem sendMoveCommand_players (st : GameState) (k : String) :
    (sendMoveCommand st k).1.players = st.players := by
  unfold sendMoveCommand
  by_cases hs : st.socketOpen
  · rcases hd : keyCodeToDirection k with _ | d
    · simp [hs, hd]
    · rcases hm : st.myPlayer with _ | r <;>
        simp [hs, hd, hm, updateMyPosition_players]
  · simp [hs]

/-- The messages, sent-direction bookkeeping and moving flag produced by
`sendMoveCommand` when the socket is open and the key is directional. -/
theorem sendMoveCommand_sent (st : GameState) (k d : String)
    (hs : st.socketOpen = true) (hd : keyCodeToDirection k = some d) :
    (∃ x y : ℚ, sentMsgs (sendMoveCommand st k).2 = [OutMsg.move x y]) ∧
    (sendMoveCommand st k).1.lastSentDirection = some d ∧
    (sendMoveCommand st k).1.isMoving = true := by
  unfold sendMoveCommand
  rcases hm : st.myPlayer with _ | r <;>
    simp only [hs, hd, hm, if_true] <;>
    simp [sentMsgs_append, updateMyPosition_sentMsgs,
          updateMyPosition_lastSentDirection, updateMyPosition_isMoving,
          sentMsgs_nil, sentMsgs_cons_facingWrite, sentMsgs_cons_send]

/-- C3 counterexample: at a concrete joined state, the effect trace of a
move intent places the outbound `move` message (index 1) strictly before
the optimistic position write (index 2), so the position is *not*
updated before the message is sent. -/
theorem optimistic_update_before_send_counterexample :
    (sendMoveCommand st0 "ArrowUp").2.findIdx isSendMove = 1 ∧
    (sendMoveCommand st0 "ArrowUp").2.findIdx isPosWrite = 2 ∧
    ¬ ((sendMoveCommand st0 "ArrowUp").2.findIdx isPosWrite <
       (sendMoveCommand st0 "ArrowUp").2.findIdx isSendMove) := by
  refine ⟨?_, ?_, ?_⟩ <;>
    simp [sendMoveCommand, updateMyPosition, render, st0, stInit,
          List.findIdx, List.findIdx.go, isSendMove, isPosWrite]

/-- C3 amended: for every move intent with a controlled player and an
open channel, the effect trace is exactly facing write, then the
outbound `move` message, then the optimistic position write, then the
render — the message is sent strictly *before* the position update, and
the only render of the intent happens after the update (so a render
dispatched by the intent still reflects the optimistic state). -/
theorem send_then_optimistic_update (st : GameState)
    (keyCode direction : String) (r : Ref)
    (hs : st.socketOpen = true) (hm : st.myPlayer = some r)
    (hw : st.worldImageLoaded = true)
    (hd : keyCodeToDirection keyCode = some direction) :
    ∃ x y : ℚ, (sendMoveCommand st keyCode).2 =
      [Event.facingWrite direction, Event.send (OutMsg.move x y),
       Event.posWrite direction, Event.render] := by
  unfold sendMoveCommand
  simp only [hs, hd, hm, if_true]
  simp only [updateMyPosition_snd, hw]
  exact ⟨_, _, rfl⟩

/-- Witness for C3 (amended) at a concrete state. -/
theorem send_then_optimistic_update_witness :
    ∃ x y : ℚ, (sendMoveCommand st0 "ArrowUp").2 =
      [Event.facingWrite "up", Event.send (OutMsg.move x y),
       Event.posWrite "up", Event.render] :=
  send_then_optimistic_update st0 "ArrowUp" "up" 0 rfl rfl rfl rfl

/-- C4: the outbound `move` message carries the locally computed target
position as `(x, y)`, and that pair equals the controlled player's
position in the EntityStore immediately after the optimistic update of
the same intent (the store entry for the controlled id is the same
object the update wrote through). -/
theorem move_msg_carries_predicted_position (st : GameState)
    (keyCode direction pid : String) (r : Ref)
    (hs : st.socketOpen = true) (hid : st.myPlayerId = some pid)
    (hlk : alookup st.players pid = some r) (hm : st.myPlayer = some r)
    (hd : keyCodeToDirection keyCode = some direction) :
    sentMsgs (sendMoveCommand st keyCode).2 =
      [OutMsg.move ((sendMoveCommand st keyCode).1.heap r).x
                   ((sendMoveCommand st keyCode).1.heap r).y] ∧
    playerValue (sendMoveCommand st keyCode).1 pid =
      some ((sendMoveCommand st keyCode).1.heap r) := by
  constructor
  · rcases keyCodeToDirection_cases hd with ⟨hk, hdir⟩ | ⟨hk, hdir⟩ |
      ⟨hk, hdir⟩ | ⟨hk, hdir⟩ <;> subst hk <;> subst hdir <;>
      (unfold sendMoveCommand
       simp only [hs, hm, if_true, keyCodeToDirection]
       simp [sentMsgs_append, sentMsgs_cons_facingWrite, sentMsgs_cons_send,
             sentMsgs_nil, sentMsgs_cons_posWrite, render_sentMsgs,
             updateMyPosition, render_heap, calculateNewPosition])
  · unfold playerValue
    rw [sendMoveCommand_players, hlk]
    simp

/-- Witness for C4 at a concrete joined state. -/
theorem move_msg_carries_predicted_position_witness :
    sentMsgs (sendMoveCommand st0 "ArrowUp").2 =
      [OutMsg.move ((sendMoveCommand st0 "ArrowUp").1.heap 0).x
                   ((sendMoveCommand st0 "ArrowUp").1.heap 0).y] ∧
    playerValue (sendMoveCommand st0 "ArrowUp").1 "p1" =
      some ((sendMoveCommand st0 "ArrowUp").1.heap 0) :=
  move_msg_carries_predicted_position st0 "ArrowUp" "up" "p1" 0
    rfl rfl rfl rfl rfl

/-- C5: the optimistic move keeps the controlled player inside
`[0, worldWidth] × [0, worldHeight]` for every direction, and moving up
from `y = 5` clamps to `0` and stays `0` on every further move up. -/
theorem apply_move_stays_in_bounds :
    (∀ (st : GameState) (r : Ref) (direction : String),
      st.myPlayer = some r →
      0 ≤ (st.heap r).x → (st.heap r).x ≤ st.worldWidth →
      0 ≤ (st.heap r).y → (st.heap r).y ≤ st.worldHeight →
      0 ≤ ((updateMyPosition st direction).1.heap r).x ∧
      ((updateMyPosition st direction).1.heap r).x ≤ st.worldWidth ∧
      0 ≤ ((updateMyPosition st direction).1.heap r).y ∧
      ((updateMyPosition st direction).1.heap r).y ≤ st.worldHeight) ∧
    (∀ (st : GameState) (r : Ref), st.myPlayer = some r →
      (st.heap r).y = 5 → ((updateMyPosition st "up").1.heap r).y = 0) ∧
    (∀ (st : GameState) (r : Ref), st.myPlayer = some r →
      (st.heap r).y = 0 → ((updateMyPosition st "up").1.heap r).y = 0) := by
  refine ⟨?_, ?_, ?_⟩
  · intro st r direction hm hx0 hxw hy0 hyw
    have hh : (updateMyPosition st direction).1.heap r =
        (if direction = "up" then
          { st.heap r with y := max 0 ((st.heap r).y - 16) }
         else if direction = "down" then
          { st.heap r with y := min st.worldHeight ((st.heap r).y + 16) }
         else if direction = "left" then
          { st.heap r with x := max 0 ((st.heap r).x - 16) }
         else if direction = "right" then
          { st.heap r with x := min st.worldWidth ((st.heap r).x + 16) }
         else st.heap r) := by
      simp [updateMyPosition, hm, render_heap]
    rw [hh]
    split_ifs
    · exact ⟨hx0, hxw, le_max_left _ _,
        max_le (le_trans hy0 hyw) (by linarith)⟩
    · exact ⟨hx0, hxw, le_min (le_trans hy0 hyw) (by linarith),
        min_le_left _ _⟩
    · exact ⟨le_max_left _ _, max_le (le_trans hx0 hxw) (by linarith),
        hy0, hyw⟩
    · exact ⟨le_min (le_trans hx0 hxw) (by linarith), min_le_left _ _,
        hy0, hyw⟩
    · exact ⟨hx0, hxw, hy0, hyw⟩
  · intro st r hm hy
    have hh : ((updateMyPosition st "up").1.heap r).y =
        max 0 ((st.heap r).y - 16) := by
      simp [updateMyPosition, hm, render_heap]
    rw [hh, hy]
    rw [show (5 : ℚ) - 16 = -11 by norm_num]
    exact max_eq_left (by norm_num)
  · intro st r hm hy
    have hh : ((updateMyPosition st "up").1.heap r).y =
        max 0 ((st.heap r).y - 16) := by
      simp [updateMyPosition, hm, render_heap]
    rw [hh, hy]
    rw [show (0 : ℚ) - 16 = -16 by norm_num]
    exact max_eq_left (by norm_num)

/-- Witness for C5 at a concrete state and a concrete `y = 5` state. -/
theorem apply_move_stays_in_bounds_witness :
    (0 ≤ ((updateMyPosition st0 "up").1.heap 0).x ∧
     ((updateMyPosition st0 "up").1.heap 0).x ≤ st0.worldWidth ∧
     0 ≤ ((updateMyPosition st0 "up").1.heap 0).y ∧
     ((updateMyPosition st0 "up").1.heap 0).y ≤ st0.worldHeight) ∧
    ((updateMyPosition
        { st0 with heap := fun _ => { pJadon with y := 5 } } "up").1.heap
        0).y = 0 :=
  ⟨apply_move_stays_in_bounds.1 st0 0 "up" rfl (by norm_num [st0, stInit, pJadon])
      (by norm_num [st0, stInit, pJadon]) (by norm_num [st0, stInit, pJadon])
      (by norm_num [st0, stInit, pJadon]),
   apply_move_stays_in_bounds.2.1
      { st0 with heap := fun _ => { pJadon with y := 5 } } 0 rfl rfl⟩

/-- The client state with a closed socket (for the no-op case). -/
def stClosed : GameState := { stInit with socketOpen := false }

/-- C6 counterexample: with no controlled player (pre-join state) and an
open socket, a move intent is *not* a no-op: it still sends an outbound
`move` message (with the fallback position `(0, 0)`) and flips the
`isMoving` flag, and a stop intent still sends `stop`. -/
theorem no_player_noop_counterexample :
    sentMsgs (sendMoveCommand stInit "ArrowUp").2 = [OutMsg.move 0 0] ∧
    (sendMoveCommand stInit "ArrowUp").1.isMoving = true ∧
    stInit.isMoving = false ∧
    sentMsgs (sendStopCommand stInit).2 = [OutMsg.stop] :=
  ⟨rfl, rfl, rfl, rfl⟩

/-- C6 amended: with no controlled player, move and stop intents leave
the EntityStore (players, heap) and the camera unchanged, but each still
sends an outbound message — `move` carries the fallback target `(0, 0)`
and sets `lastSentDirection`/`isMoving`; `stop` is sent as usual and
clears them.  Only a closed channel makes both intents complete
no-ops. -/
theorem no_player_still_sends :
    (∀ (st : GameState) (keyCode direction : String),
      st.myPlayer = none → st.socketOpen = true →
      keyCodeToDirection keyCode = some direction →
      (sendMoveCommand st keyCode).1.players = st.players ∧
      (sendMoveCommand st keyCode).1.heap = st.heap ∧
      (sendMoveCommand st keyCode).1.cameraX = st.cameraX ∧
      (sendMoveCommand st keyCode).1.cameraY = st.cameraY ∧
      sentMsgs (sendMoveCommand st keyCode).2 = [OutMsg.move 0 0] ∧
      (sendMoveCommand st keyCode).1.lastSentDirection = some direction ∧
      (sendMoveCommand st keyCode).1.isMoving = true) ∧
    (∀ st : GameState, st.myPlayer = none → st.socketOpen = true →
      (sendStopCommand st).1.players = st.players ∧
      (sendStopCommand st).1.heap = st.heap ∧
      sentMsgs (sendStopCommand st).2 = [OutMsg.stop] ∧
      (sendStopCommand st).1.lastSentDirection = none ∧
      (sendStopCommand st).1.isMoving = false) ∧
    (∀ (st : GameState) (keyCode : String), st.socketOpen = false →
      sendMoveCommand st keyCode = (st, []) ∧
      sendStopCommand st = (st, [])) := by
  refine ⟨?_, ?_, ?_⟩
  · intro st keyCode direction hm hs hd
    unfold sendMoveCommand
    simp only [hs, hd, hm, if_true]
    simp only [calculateNewPosition, updateMyPosition, hm]
    simp [sentMsgs]
  · intro st hm hs
    unfold sendStopCommand
    simp only [hs, if_true]
    simp [sentMsgs]
  · intro st keyCode hs
    unfold sendMoveCommand sendStopCommand
    simp [hs]

/-- Witness for C6 (amended) at concrete states. -/
theorem no_player_still_sends_witness :
    (sendMoveCommand stInit "ArrowUp").1.players = stInit.players ∧
    sentMsgs (sendStopCommand stInit).2 = [OutMsg.stop] ∧
    sendMoveCommand stClosed "ArrowUp" = (stClosed, []) :=
  ⟨(no_player_still_sends.1 stInit "ArrowUp" "up" rfl rfl rfl).1,
   (no_player_still_sends.2.1 stInit rfl rfl).2.2.1,
   (no_player_still_sends.2.2 stClosed "ArrowUp" rfl).1⟩

/-- C7: releasing a held directional key emits exactly one stop intent
when no directional key remains held, and otherwise exactly one move
intent whose direction is the first still-held direction in the fixed
enumeration order up, down, left, right (e.g. holding up+left and
releasing left re-emits a move for up). -/
theorem keyup_emits_stop_or_priority_move (st : GameState)
    (keyCode : String) (hs : st.socketOpen = true)
    (hmem : keyCode ∈ arrowKeys)
    (hheld : getKey st.pressedKeys keyCode = true) :
    (setKey st.pressedKeys keyCode false =
        { ArrowUp := false, ArrowDown := false, ArrowLeft := false,
          ArrowRight := false } →
      sentMsgs (handleKeyUp st keyCode).2 = [OutMsg.stop] ∧
      (handleKeyUp st keyCode).1.isMoving = false) ∧
    ((setKey st.pressedKeys keyCode false).ArrowUp = true →
      (∃ x y : ℚ, sentMsgs (handleKeyUp st keyCode).2 = [OutMsg.move x y]) ∧
      (handleKeyUp st keyCode).1.lastSentDirection = some "up" ∧
      (handleKeyUp st keyCode).1.isMoving = true) ∧
    ((setKey st.pressedKeys keyCode false).ArrowUp = false →
     (setKey st.pressedKeys keyCode false).ArrowDown = true →
      (∃ x y : ℚ, sentMsgs (handleKeyUp st keyCode).2 = [OutMsg.move x y]) ∧
      (handleKeyUp st keyCode).1.lastSentDirection = some "down" ∧
      (handleKeyUp st keyCode).1.isMoving = true) ∧
    ((setKey st.pressedKeys keyCode false).ArrowUp = false →
     (setKey st.pressedKeys keyCode false).ArrowDown = false →
     (setKey st.pressedKeys keyCode false).ArrowLeft = true →
      (∃ x y : ℚ, sentMsgs (handleKeyUp st keyCode).2 = [OutMsg.move x y]) ∧
      (handleKeyUp st keyCode).1.lastSentDirection = some "left" ∧
      (handleKeyUp st keyCode).1.isMoving = true) ∧
    ((setKey st.pressedKeys keyCode false).ArrowUp = false →
     (setKey st.pressedKeys keyCode false).ArrowDown = false →
     (setKey st.pressedKeys keyCode false).ArrowLeft = false →
     (setKey st.pressedKeys keyCode false).ArrowRight = true →
      (∃ x y : ℚ, sentMsgs (handleKeyUp st keyCode).2 = [OutMsg.move x y]) ∧
      (handleKeyUp st keyCode).1.lastSentDirection = some "right" ∧
      (handleKeyUp st keyCode).1.isMoving = true) := by
  refine ⟨?_, ?_, ?_, ?_, ?_⟩
  · intro hks
    have hred : handleKeyUp st keyCode = sendStopCommand
        { st with pressedKeys := setKey st.pressedKeys keyCode false } := by
      simp [handleKeyUp, hmem, hks]
    rw [hred]
    unfold sendStopCommand
    simp [hs, sentMsgs]
  · intro hup
    have hred : handleKeyUp st keyCode = sendMoveCommand
        { st with pressedKeys := setKey st.pressedKeys keyCode false }
        "ArrowUp" := by
      simp [handleKeyUp, hmem, sendMoveCommandForPressedKeys, hup]
    rw [hred]
    exact sendMoveCommand_sent _ "ArrowUp" "up" hs rfl
  · intro h1 h2
    have hred : handleKeyUp st keyCode = sendMoveCommand
        { st with pressedKeys := setKey st.pressedKeys keyCode false }
        "ArrowDown" := by
      simp [handleKeyUp, hmem, sendMoveCommandForPressedKeys, h1, h2]
    rw [hred]
    exact sendMoveCommand_sent _ "ArrowDown" "down" hs rfl
  · intro h1 h2 h3
    have hred : handleKeyUp st keyCode = sendMoveCommand
        { st with pressedKeys := setKey st.pressedKeys keyCode false }
        "ArrowLeft" := by
      simp [handleKeyUp, hmem, sendMoveCommandForPressedKeys, h1, h2, h3]
    rw [hred]
    exact sendMoveCommand_sent _ "ArrowLeft" "left" hs rfl
  · intro h1 h2 h3 h4
    have hred : handleKeyUp st keyCode = sendMoveCommand
        { st with pressedKeys := setKey st.pressedKeys keyCode false }
        "ArrowRight" := by
      simp [handleKeyUp, hmem, sendMoveCommandForPressedKeys, h1, h2, h3, h4]
    rw [hred]
    exact sendMoveCommand_sent _ "ArrowRight" "right" hs rfl

/-- Witness for C7: holding up+left and releasing left re-emits a move
for up; releasing the last held key (up alone, releasing up) emits
exactly one stop. -/
theorem keyup_emits_stop_or_priority_move_witness :
    ((∃ x y : ℚ, sentMsgs (handleKeyUp
        { st0 with pressedKeys := { ArrowUp := true, ArrowDown := false,
                                    ArrowLeft := true, ArrowRight := false } }
        "ArrowLeft").2 = [OutMsg.move x y]) ∧
     (handleKeyUp
        { st0 with pressedKeys := { ArrowUp := true, ArrowDown := false,
                                    ArrowLeft := true, ArrowRight := false } }
        "ArrowLeft").1.lastSentDirection = some "up" ∧
     (handleKeyUp
        { st0 with pressedKeys := { ArrowUp := true, ArrowDown := false,
                                    ArrowLeft := true, ArrowRight := false } }
        "ArrowLeft").1.isMoving = true) ∧
    sentMsgs (handleKeyUp
        { st0 with pressedKeys := { ArrowUp := true, ArrowDown := false,
                                    ArrowLeft := false, ArrowRight := false } }
        "ArrowUp").2 = [OutMsg.stop] :=
  ⟨(keyup_emits_stop_or_priority_move
      { st0 with pressedKeys := { ArrowUp := true, ArrowDown := false,
                                  ArrowLeft := true, ArrowRight := false } }
      "ArrowLeft" rfl (by decide) rfl).2.1 rfl,
   ((keyup_emits_stop_or_priority_move
      { st0 with pressedKeys := { ArrowUp := true, ArrowDown := false,
                                  ArrowLeft := false, ArrowRight := false } }
      "ArrowUp" rfl (by decide) rfl).1 rfl).1⟩

/-- Cache keys built from the facings `east` and `left` differ for every
avatar name and frame suffix. -/
theorem east_left_key_ne (a f : String) :
    a ++ "_" ++ "east" ++ "_" ++ f ≠ a ++ "_" ++ "left" ++ "_" ++ f := by
  intro h
  have h2 : (a ++ "_" ++ "east" ++ "_" ++ f).data =
      (a ++ "_" ++ "left" ++ "_" ++ f).data := by rw [h]
  simp only [String.data_append, List.append_assoc] at h2
  have h3 := List.append_cancel_left h2
  simp at h3

/-- C8: a facing of `west` or its alias `left` resolves to lookup
direction `east` with the mirror flag set; any other facing resolves to
itself without mirroring; and the cache key is built from the original
(pre-canonicalization) facing, so facings `east` and `left` produce
distinct cache keys even though they select the same underlying frame
identifier. -/
theorem west_resolves_east_mirrored :
    (∀ (avatars : List (String × AvatarDef)) (p : Player)
        (res : ResolvedAvatar),
      (p.facing = some "west" ∨ p.facing = some "left") →
      renderAvatarResolve avatars p = some res →
      res.actualDirection = "east" ∧ res.shouldFlip = true) ∧
    (∀ (avatars : List (String × AvatarDef)) (p : Player)
        (res : ResolvedAvatar) (d : String),
      p.facing = some d → d ≠ "left" → d ≠ "west" →
      renderAvatarResolve avatars p = some res →
      res.actualDirection = d ∧ res.shouldFlip = false) ∧
    (∀ (avatars : List (String × AvatarDef)) (pe pl : Player)
        (re rl : ResolvedAvatar),
      pe.avatar = pl.avatar → pe.animationFrame = pl.animationFrame →
      pe.facing = some "east" → pl.facing = some "left" →
      renderAvatarResolve avatars pe = some re →
      renderAvatarResolve avatars pl = some rl →
      re.frameData = rl.frameData ∧ re.cacheKey ≠ rl.cacheKey) := by
  refine ⟨?_, ?_, ?_⟩
  · intro avatars p res hf hres
    unfold renderAvatarResolve at hres
    rcases hav : alookup avatars p.avatar with _ | av <;> rw [hav] at hres
    · cases hres
    · rcases hf with hf | hf <;> rw [hf] at hres <;> simp at hres <;>
        (rcases h2 : alookup av.frames "east" with _ | fl <;> rw [h2] at hres
         · cases hres
         · dsimp only at hres
           rcases h3 : fl[p.animationFrame.getD 0]? with _ | fd <;>
             rw [h3] at hres
           · cases hres
           · cases Option.some.inj hres
             exact ⟨rfl, rfl⟩)
  · intro avatars p res d hf h1 h2 hres
    unfold renderAvatarResolve at hres
    rcases hav : alookup avatars p.avatar with _ | av <;> rw [hav] at hres
    · cases hres
    · rw [hf] at hres
      simp only [Option.getD_some] at hres
      rw [if_neg (by simp [h1, h2])] at hres
      rcases h3 : alookup av.frames d with _ | fl <;> rw [h3] at hres
      · cases hres
      · dsimp only at hres
        rcases h4 : fl[p.animationFrame.getD 0]? with _ | fd <;>
          rw [h4] at hres
        · cases hres
        · cases Option.some.inj hres
          refine ⟨rfl, ?_⟩
          simp [h1, h2]
  · intro avatars pe pl re rl hav hfr hfe hfl hre hrl
    unfold renderAvatarResolve at hre hrl
    rw [hav] at hre
    rw [hfr] at hre
    rcases h1 : alookup avatars pl.avatar with _ | av <;>
      rw [h1] at hre hrl
    · cases hre
    · rw [hfe] at hre
      rw [hfl] at hrl
      simp at hre hrl
      rcases h2 : alookup av.frames "east" with _ | fl <;> rw [h2] at hre hrl
      · cases hre
      · dsimp only at hre hrl
        rcases h3 : fl[pl.animationFrame.getD 0]? with _ | fd <;>
          rw [h3] at hre hrl
        · cases hre
        · cases Option.some.inj hre
          cases Option.some.inj hrl
          exact ⟨rfl, east_left_key_ne _ _⟩

/-- Witness for C8 at a concrete avatar table and players. -/
theorem west_resolves_east_mirrored_witness :
    (∃ res : ResolvedAvatar,
      renderAvatarResolve [("hero", heroAvatar)]
        { pJadon with facing := some "west" } = some res ∧
      res.actualDirection = "east" ∧ res.shouldFlip = true) ∧
    (∃ re rl : ResolvedAvatar,
      renderAvatarResolve [("hero", heroAvatar)]
        { pJadon with facing := some "east" } = some re ∧
      renderAvatarResolve [("hero", heroAvatar)]
        { pJadon with facing := some "left" } = some rl ∧
      re.frameData = rl.frameData ∧ re.cacheKey ≠ rl.cacheKey) :=
  ⟨⟨{ actualDirection := "east", shouldFlip := true, frameData := "e0",
      cacheKey := "hero" ++ "_" ++ "west" ++ "_" ++ toString 0 },
    rfl,
    west_resolves_east_mirrored.1 [("hero", heroAvatar)]
      { pJadon with facing := some "west" } _ (Or.inl rfl) rfl⟩,
   ⟨{ actualDirection := "east", shouldFlip := false, frameData := "e0",
      cacheKey := "hero" ++ "_" ++ "east" ++ "_" ++ toString 0 },
    { actualDirection := "east", shouldFlip := true, frameData := "e0",
      cacheKey := "hero" ++ "_" ++ "left" ++ "_" ++ toString 0 },
    rfl, rfl,
    west_resolves_east_mirrored.2.2 [("hero", heroAvatar)]
      { pJadon with facing := some "east" }
      { pJadon with facing := some "left" } _ _ rfl rfl rfl rfl rfl rfl⟩⟩

/-- A joined state whose viewport (4096 × 4096) is larger than the
world (2048 × 2048). -/
def stBig : GameState := { st0 with canvasWidth := 4096, canvasHeight := 4096 }

/-- C9 counterexample: when the viewport is larger than the world, the
clamped camera offset is 0 and the far viewport corner lies outside the
world, so the claimed bound fails for that viewport size. -/
theorem camera_clamp_counterexample :
    (updateCamera stBig).cameraX = 0 ∧
    ¬ ((updateCamera stBig).cameraX + stBig.canvasWidth ≤
        stBig.worldWidth) := by
  constructor
  · show max 0 (min ((100 : ℚ) - 4096 / 2) (2048 - 4096)) = 0
    rw [min_def, max_def]
    norm_num
  · show ¬ (max 0 (min ((100 : ℚ) - 4096 / 2) (2048 - 4096)) + 4096 ≤ 2048)
    rw [min_def, max_def]
    norm_num

/-- C9 amended: for every controlled-player position, the recomputed
camera offset keeps every viewport corner inside
`[0, worldWidth] × [0, worldHeight]` *provided* the viewport is no
larger than the world on each axis (the counterexample above shows the
bound fails for a viewport larger than the world). -/
theorem camera_clamped_to_world (st : GameState) (r : Ref)
    (hm : st.myPlayer = some r)
    (hw : st.canvasWidth ≤ st.worldWidth)
    (hh : st.canvasHeight ≤ st.worldHeight) :
    0 ≤ (updateCamera st).cameraX ∧
    (updateCamera st).cameraX + st.canvasWidth ≤ st.worldWidth ∧
    0 ≤ (updateCamera st).cameraY ∧
    (updateCamera st).cameraY + st.canvasHeight ≤ st.worldHeight := by
  have hcx : (updateCamera st).cameraX =
      max 0 (min ((st.heap r).x - st.canvasWidth / 2)
                 (st.worldWidth - st.canvasWidth)) := by
    simp [updateCamera, hm]
  have hcy : (updateCamera st).cameraY =
      max 0 (min ((st.heap r).y - st.canvasHeight / 2)
                 (st.worldHeight - st.canvasHeight)) := by
    simp [updateCamera, hm]
  rw [hcx, hcy]
  have hx2 : max 0 (min ((st.heap r).x - st.canvasWidth / 2)
      (st.worldWidth - st.canvasWidth)) ≤ st.worldWidth - st.canvasWidth :=
    max_le (by linarith) (min_le_right _ _)
  have hy2 : max 0 (min ((st.heap r).y - st.canvasHeight / 2)
      (st.worldHeight - st.canvasHeight)) ≤
        st.worldHeight - st.canvasHeight :=
    max_le (by linarith) (min_le_right _ _)
  exact ⟨le_max_left _ _, by linarith, le_max_left _ _, by linarith⟩

/-- Witness for C9 (amended) at a concrete state (800 × 600 viewport,
2048 × 2048 world). -/
theorem camera_clamped_to_world_witness :
    0 ≤ (updateCamera st0).cameraX ∧
    (updateCamera st0).cameraX + st0.canvasWidth ≤ st0.worldWidth ∧
    0 ≤ (updateCamera st0).cameraY ∧
    (updateCamera st0).cameraY + st0.canvasHeight ≤ st0.worldHeight :=
  camera_clamped_to_world st0 0 rfl (by norm_num [st0, stInit])
    (by norm_num [st0, stInit])

/-- C10: the image cache does not deduplicate in-flight loads.  Two
requests for the same key that both arrive before the first load
completes (possible because `render` passes are fired without being
awaited and `renderAvatar` suspends between the cache check and the
cache write) each start a load: the claimed at-most-one-load invariant
fails.  The cache only deduplicates once a load has completed. -/
theorem image_cache_duplicate_load :
    (cacheRun [CacheEvent.request "hero_south_0",
               CacheEvent.request "hero_south_0"]).startedLoads =
      ["hero_south_0", "hero_south_0"] ∧
    ¬ ((cacheRun [CacheEvent.request "hero_south_0",
                  CacheEvent.request "hero_south_0"]).startedLoads.count
          "hero_south_0" ≤ 1) ∧
    (cacheRun [CacheEvent.request "hero_south_0",
               CacheEvent.loadComplete "hero_south_0",
               CacheEvent.request "hero_south_0"]).startedLoads =
      ["hero_south_0"] := by
  decide

end GameClient
